import Mathlib

/-
Shallow embedding of the httperr Go package (mickamy/httperr, src/httperr.go).

Modelling conventions:
- Go strings are modelled as `List Char`; strings.HasPrefix / strings.HasSuffix
  become `hasPre` / `hasSuf`.
- A Go error value is modelled by `GoError`: every error has an identity `uid`
  (two Go error values are `==` exactly when they are the same allocation,
  modelled here as uid equality), an optional localization capability
  (the Localizable interface method, a function from a language tag to a
  string) and, for errors implementing `Unwrap() error`, an inner error.
- A nil Go error is `none : Option GoError`.
- The Go map `Map = map[error]Config` is modelled as an association list
  `List (Option GoError × Config)`; the list order stands for the (undefined)
  iteration order of the Go map.
- `errors.Is` and the `errors.As`-based extraction of the Localizable
  capability are modelled by `errorsIs` / `errorsAs`, following the wrap
  chain exactly as the Go standard library does (compare the outermost error
  first, then repeatedly unwrap).
-/

namespace Httperr

/-- Go strings.HasPrefix: `hasPre s p` is true when `p` is a prefix of `s`. -/
def hasPre : List Char → List Char → Bool
  | _, [] => true
  | [], _ :: _ => false
  | c :: s, d :: p => c == d && hasPre s p

/-- Go strings.HasSuffix: `hasSuf s p` is true when `p` is a suffix of `s`. -/
def hasSuf (s p : List Char) : Bool :=
  hasPre s.reverse p.reverse

/-- Config is the HTTP response configuration for an error
(src/httperr.go, type Config). Field names follow the Go fields
Type / Title / Status (`Type` is a Lean keyword, hence `typ`). -/
structure Config where
  typ : List Char
  title : List Char
  status : Int
deriving DecidableEq

/-- New creates a Config (src/httperr.go, func New). -/
def New (typ title : List Char) (status : Int) : Config :=
  ⟨typ, title, status⟩

/-- A Go error value: `base` is an error with no `Unwrap` method, `node` an
error wrapping an inner error. `uid` models the identity of the allocation
(Go interface equality); `loc` is `some f` when the error's dynamic type
implements the Localizable interface with method `f`. -/
inductive GoError where
  | base (uid : Nat) (loc : Option (String → List Char))
  | node (uid : Nat) (loc : Option (String → List Char)) (inner : GoError)

/-- The identity of an error value. -/
def GoError.uid : GoError → Nat
  | .base u _ => u
  | .node u _ _ => u

/-- Go errors.Is restricted to non-nil arguments: compare the outermost
error with the target, then follow the wrap chain. -/
def errIs : GoError → GoError → Bool
  | .base u _, t => u == t.uid
  | .node u _ inner, t => u == t.uid || errIs inner t

/-- Go errors.Is on possibly-nil errors: a nil target matches exactly a nil
error; a nil error matches no non-nil target. -/
def errorsIs : Option GoError → Option GoError → Bool
  | e, none => e.isNone
  | none, some _ => false
  | some e, some t => errIs e t

/-- Extraction of the Localizable capability from a non-nil error, as
errors.As does: the outermost error of the wrap chain that implements the
interface wins. -/
def asLocalizable : GoError → Option (String → List Char)
  | .base _ l => l
  | .node _ l inner =>
    match l with
    | some f => some f
    | none => asLocalizable inner

/-- Go errors.As for the Localizable target on a possibly-nil error:
errors.As returns false immediately on a nil error. -/
def errorsAs : Option GoError → Option (String → List Char)
  | none => none
  | some e => asLocalizable e

/-- Map is a mapping from error to Config (src/httperr.go, type Map).
Modelled as an association list; the order models the map iteration order. -/
abbrev Map := List (Option GoError × Config)

/-- The package-level default configuration (src/httperr.go, defaultConfig). -/
def defaultConfig : Config :=
  ⟨"about:blank".toList, "Internal Server Error".toList, 500⟩

/-- Match finds a Config that matches the error using errors.Is; returns the
default (500 Internal Server Error) if not found (src/httperr.go, Map.Match). -/
def Map.Match : Map → Option GoError → Config
  | [], _ => defaultConfig
  | (target, config) :: rest, err =>
    if errorsIs err target then config else Map.Match rest err

/-- Response is the resolved response information (src/httperr.go, type
Response). -/
structure Response where
  typ : List Char
  title : List Char
  status : Int
  detail : List Char
deriving DecidableEq

/-- isAbsoluteURI (src/httperr.go): a URI is absolute when it starts with
http://, https:// or about:. -/
def isAbsoluteURI (uri : List Char) : Bool :=
  hasPre uri "http://".toList ||
  hasPre uri "https://".toList ||
  hasPre uri "about:".toList

/-- resolveURI (src/httperr.go): append a trailing slash to the base when it
does not already end with one, then concatenate the reference. -/
def resolveURI (base ref : List Char) : List Char :=
  (if hasSuf base "/".toList then base else base ++ "/".toList) ++ ref

/-- A value of the Go `map[string]any` result of ProblemDetail: the code
stores strings and one int (the status). -/
inductive PDValue where
  | str (s : List Char)
  | int (n : Int)
deriving DecidableEq

/-- ProblemDetail returns the RFC 9457 compliant map (src/httperr.go,
Response.ProblemDetail). The variadic `baseURI ...string` parameter is the
list `baseURI`; the Go `map[string]any` is an association list whose key set
is what matters. -/
def Response.ProblemDetail (r : Response) (inst : List Char)
    (baseURI : List (List Char)) : List (String × PDValue) :=
  let typeURI :=
    match baseURI with
    | [] => r.typ
    | b :: _ =>
      if b != [] && !isAbsoluteURI r.typ then resolveURI b r.typ else r.typ
  let pd := [("type", PDValue.str typeURI),
             ("title", PDValue.str r.title),
             ("status", PDValue.int r.status)]
  let pd := if r.detail != [] then pd ++ [("detail", PDValue.str r.detail)] else pd
  let pd := if inst != [] then pd ++ [("instance", PDValue.str inst)] else pd
  pd

/-- Resolve resolves an error to response information (src/httperr.go,
func Resolve): find a Config from the Map using errors.Is, find a Localizable
using errors.As and localize the Detail. -/
def Resolve (err : Option GoError) (m : Map) (tag : String) : Response :=
  let config := Map.Match m err
  let detail :=
    match errorsAs err with
    | some loc => loc tag
    | none => []
  ⟨config.typ, config.title, config.status, detail⟩

/-- Wrap an error in successive layers of generic wrapping (the model of
repeated `fmt.Errorf("context: %w", err)`): each layer is a fresh error value
with its own uid, no localization capability, and the previous error inside. -/
def wrapMany : List Nat → GoError → GoError
  | [], e => e
  | u :: us, e => .node u none (wrapMany us e)

/-- Wrapping layers preserve errors.Is: if an error matches a sentinel, so
does the error after any number of generic wrapping layers. -/
theorem errIs_wrapMany (us : List Nat) (e s : GoError) (h : errIs e s = true) :
    errIs (wrapMany us e) s = true := by
  induction us with
  | nil => exact h
  | cons u us ih => simp [wrapMany, errIs, ih]

/-- If no entry of the map matches the error, Match returns the default
configuration. -/
theorem match_eq_default_of_no_match (m : Map) (err : Option GoError)
    (h : ∀ t c, (t, c) ∈ m → errorsIs err t = false) :
    Map.Match m err = defaultConfig := by
  induction m with
  | nil => rfl
  | cons hd tl ih =>
    obtain ⟨t0, c0⟩ := hd
    have h0 := h t0 c0 (List.mem_cons_self _ _)
    simp only [Map.Match, h0, Bool.false_eq_true, if_false]
    exact ih fun t c hm => h t c (List.mem_cons_of_mem _ hm)

/-- If an entry of the map matches the error and any two matching entries
are equal, Match returns that entry's configuration, whatever the order of
the entries. -/
theorem match_eq_of_mem_unique (m : Map) (err t : Option GoError) (c : Config)
    (hmem : (t, c) ∈ m) (hmatch : errorsIs err t = true)
    (huniq : ∀ p q, p ∈ m → q ∈ m →
      errorsIs err p.1 = true → errorsIs err q.1 = true → p = q) :
    Map.Match m err = c := by
  induction m with
  | nil => exact absurd hmem (List.not_mem_nil _)
  | cons hd tl ih =>
    obtain ⟨t0, c0⟩ := hd
    by_cases h0 : errorsIs err t0 = true
    · simp only [Map.Match, h0, if_true]
      have heq := huniq (t0, c0) (t, c) (List.mem_cons_self _ _) hmem h0 hmatch
      exact (Prod.ext_iff.mp heq).2
    · have hneq : (t, c) ≠ (t0, c0) := by
        intro hEq
        injection hEq with h1 h2
        subst h1
        exact h0 hmatch
      have hmem' : (t, c) ∈ tl := by
        rcases List.mem_cons.mp hmem with h | h
        · exact absurd h hneq
        · exact h
      simp only [Map.Match, h0, if_false]
      exact ih hmem' fun p q hp hq =>
        huniq p q (List.mem_cons_of_mem _ hp) (List.mem_cons_of_mem _ hq)

/-- Matching a nil error against a map with no nil key returns the default
configuration. -/
theorem match_none_eq_default (m : Map) (h : ∀ c, (none, c) ∉ m) :
    Map.Match m none = defaultConfig := by
  induction m with
  | nil => rfl
  | cons hd tl ih =>
    obtain ⟨t0, c0⟩ := hd
    have h0 : errorsIs none t0 = false := by
      cases t0 with
      | none => exact absurd (List.mem_cons_self _ _) (h c0)
      | some t => rfl
    simp only [Map.Match, h0, Bool.false_eq_true, if_false]
    exact ih fun c hm => h c (List.mem_cons_of_mem _ hm)

/-- C1: for every error e registered in the map against sentinel s with
configuration c (the map has no duplicate keys, and the wrap chain of the
wrapped error satisfies no registered sentinel other than s), Match returns c
on e and on e under any finite number of generic wrapping layers (the case
us = [] is the unwrapped error e itself). -/
theorem c1_match_survives_wrapping (m : Map) (s e : GoError) (c : Config)
    (us : List Nat)
    (hmem : (some s, c) ∈ m) (hes : errIs e s = true)
    (hnodup : (m.map Prod.fst).Nodup)
    (honly : ∀ t c', (t, c') ∈ m →
      errorsIs (some (wrapMany us e)) t = true → t = some s) :
    Map.Match m (some (wrapMany us e)) = c := by
  apply match_eq_of_mem_unique m _ (some s) c hmem
  · exact errIs_wrapMany us e s hes
  · intro p q hp hq h1 h2
    have hps : p.1 = some s := honly p.1 p.2 hp h1
    have hqs : q.1 = some s := honly q.1 q.2 hq h2
    exact List.inj_on_of_nodup_map hnodup hp hq (hps.trans hqs.symm)

/-- Witness for C1: a two-entry registry, the sentinel with uid 1 wrapped in
two generic layers still matches its configuration. -/
theorem c1_witness :
    Map.Match
        [(some (GoError.base 1 none), New "users/not-found".toList "User not found".toList 404),
         (some (GoError.base 2 none), New "auth/unauthorized".toList "Unauthorized".toList 401)]
        (some (wrapMany [7, 8] (GoError.base 1 none)))
      = New "users/not-found".toList "User not found".toList 404 :=
  c1_match_survives_wrapping _ (GoError.base 1 none) (GoError.base 1 none) _ [7, 8]
    (List.mem_cons_self _ _) (by decide)
    (by simp)
    (by
      intro t c' hm hmatch
      simp only [List.mem_cons, List.not_mem_nil, or_false, Prod.mk.injEq] at hm
      rcases hm with ⟨ht, _⟩ | ⟨ht, _⟩
      · exact ht
      · subst ht
        exact absurd hmatch (by decide))

/-- C2: for every error whose wrap chain satisfies no registered sentinel,
Match returns the constant default configuration, with type about:blank,
title Internal Server Error and status 500. -/
theorem c2_unmatched_is_default (m : Map) (err : Option GoError)
    (h : ∀ t c, (t, c) ∈ m → errorsIs err t = false) :
    Map.Match m err = ⟨"about:blank".toList, "Internal Server Error".toList, 500⟩ :=
  match_eq_default_of_no_match m err h

/-- Witness for C2: an unregistered error (uid 3) against a one-entry map. -/
theorem c2_witness :
    Map.Match [(some (GoError.base 1 none), New "users/not-found".toList "User not found".toList 404)]
        (some (GoError.base 3 none))
      = ⟨"about:blank".toList, "Internal Server Error".toList, 500⟩ :=
  c2_unmatched_is_default _ _ (by
    intro t c hm
    simp only [List.mem_cons, List.not_mem_nil, or_false, Prod.mk.injEq] at hm
    obtain ⟨ht, _⟩ := hm
    subst ht
    decide)

/-- C8: Match is a pure function of the registry contents and the error: for
an error whose wrap chain satisfies at most one registered sentinel (and a
registry without duplicate keys, as a Go map), any two enumeration orders of
the same entries give the same configuration. -/
theorem c8_match_enumeration_order_irrelevant (m₁ m₂ : Map) (err : Option GoError)
    (hperm : m₁.Perm m₂)
    (hnodup : (m₁.map Prod.fst).Nodup)
    (huniq : ∀ p q, p ∈ m₁ → q ∈ m₁ →
      errorsIs err p.1 = true → errorsIs err q.1 = true → p.1 = q.1) :
    Map.Match m₁ err = Map.Match m₂ err := by
  have huniq' : ∀ p q, p ∈ m₁ → q ∈ m₁ →
      errorsIs err p.1 = true → errorsIs err q.1 = true → p = q := by
    intro p q hp hq h1 h2
    exact List.inj_on_of_nodup_map hnodup hp hq (huniq p q hp hq h1 h2)
  by_cases hex : ∃ p, p ∈ m₁ ∧ errorsIs err p.1 = true
  · obtain ⟨⟨t, c⟩, hm, hmatch⟩ := hex
    have e1 := match_eq_of_mem_unique m₁ err t c hm hmatch huniq'
    have e2 := match_eq_of_mem_unique m₂ err t c (hperm.mem_iff.mp hm) hmatch
      (fun p q hp hq h1 h2 =>
        huniq' p q (hperm.mem_iff.mpr hp) (hperm.mem_iff.mpr hq) h1 h2)
    rw [e1, e2]
  · push_neg at hex
    have e1 := match_eq_default_of_no_match m₁ err
      (fun t c hm => by simpa using hex (t, c) hm)
    have e2 := match_eq_default_of_no_match m₂ err
      (fun t c hm => by simpa using hex (t, c) (hperm.mem_iff.mpr hm))
    rw [e1, e2]

/-- Witness for C8: the two orders of a two-entry registry agree on an error
matching only the first sentinel. -/
theorem c8_witness :
    Map.Match
        [(some (GoError.base 1 none), New "users/not-found".toList "User not found".toList 404),
         (some (GoError.base 2 none), New "auth/unauthorized".toList "Unauthorized".toList 401)]
        (some (GoError.base 1 none))
      = Map.Match
        [(some (GoError.base 2 none), New "auth/unauthorized".toList "Unauthorized".toList 401),
         (some (GoError.base 1 none), New "users/not-found".toList "User not found".toList 404)]
        (some (GoError.base 1 none)) :=
  c8_match_enumeration_order_irrelevant _ _ _
    (List.Perm.swap _ _ _)
    (by simp)
    (by
      intro p q hp hq h1 h2
      simp only [List.mem_cons, List.not_mem_nil, or_false] at hp hq
      rcases hp with hp | hp <;> rcases hq with hq | hq <;> subst hp <;> subst hq
      · rfl
      · exact absurd h2 (by decide)
      · exact absurd h1 (by decide)
      · rfl)

/-- C9: calling Resolve with a nil error does not fail: provided no nil
sentinel key was registered, it returns the default configuration's type,
title and status with an empty detail. -/
theorem c9_resolve_nil_error_total (m : Map) (tag : String)
    (h : ∀ c, (none, c) ∉ m) :
    Resolve none m tag
      = ⟨"about:blank".toList, "Internal Server Error".toList, 500, []⟩ := by
  simp [Resolve, errorsAs, match_none_eq_default m h, defaultConfig]

/-- Witness for C9: a nil error resolved against a one-entry map. -/
theorem c9_witness :
    Resolve none
        [(some (GoError.base 1 none), New "users/not-found".toList "User not found".toList 404)]
        "en"
      = ⟨"about:blank".toList, "Internal Server Error".toList, 500, []⟩ :=
  c9_resolve_nil_error_total _ "en" (by
    intro c hm
    simp at hm)

/-- The type entry of the problem-detail map: the response type, resolved
against the first base URI when one is given, is non-empty and the type is
not absolute. -/
theorem lookup_type_pd (r : Response) (inst : List Char) (bs : List (List Char)) :
    List.lookup "type" (r.ProblemDetail inst bs)
      = some (PDValue.str (match bs with
          | [] => r.typ
          | b :: _ =>
            if b != [] && !isAbsoluteURI r.typ then resolveURI b r.typ else r.typ)) := by
  cases bs <;>
    cases hd : r.detail != [] <;> cases hi : inst != [] <;>
      simp [Response.ProblemDetail, hd, hi, List.lookup]

/-- The detail key is present in the problem-detail map exactly when the
response detail is non-empty. -/
theorem lookup_detail_pd (r : Response) (inst : List Char) (bs : List (List Char)) :
    (List.lookup "detail" (r.ProblemDetail inst bs)).isSome = (r.detail != []) := by
  cases bs <;>
    cases hd : r.detail != [] <;> cases hi : inst != [] <;>
      simp [Response.ProblemDetail, hd, hi, List.lookup]

/-- The instance key is present in the problem-detail map exactly when the
instance argument is non-empty. -/
theorem lookup_instance_pd (r : Response) (inst : List Char) (bs : List (List Char)) :
    (List.lookup "instance" (r.ProblemDetail inst bs)).isSome = (inst != []) := by
  cases bs <;>
    cases hd : r.detail != [] <;> cases hi : inst != [] <;>
      simp [Response.ProblemDetail, hd, hi, List.lookup]

/-- With empty detail and empty instance, the key list of the problem-detail
map is exactly type, title, status. -/
theorem keys_pd (r : Response) (inst : List Char) (bs : List (List Char))
    (hd : r.detail = []) (hi : inst = []) :
    (r.ProblemDetail inst bs).map Prod.fst = ["type", "title", "status"] := by
  cases bs <;> simp [Response.ProblemDetail, hd, hi]

/-- Appending a slash produces a string that ends with a slash. -/
theorem hasSuf_append_slash (b : List Char) :
    hasSuf (b ++ "/".toList) "/".toList = true := by
  simp [hasSuf, hasPre, List.reverse_append]

/-- Resolving against a base with one trailing slash ensured gives the same
result as resolving against the base itself. -/
theorem resolveURI_ensure (b ref : List Char) :
    resolveURI (if hasSuf b "/".toList then b else b ++ "/".toList) ref
      = resolveURI b ref := by
  by_cases hs : hasSuf b "/".toList = true
  · rw [if_pos hs]
  · rw [if_neg hs]
    unfold resolveURI
    rw [if_pos (hasSuf_append_slash b), if_neg hs]

/-- C3: for a response whose type is not absolute and a non-empty base URI,
the emitted type is the base with exactly one trailing slash ensured,
concatenated with the type; and the whole problem-detail map is unchanged
when the base already carries its trailing slash. -/
theorem c3_relative_type_resolved_against_base (r : Response) (inst b : List Char)
    (hb : b ≠ []) (habs : isAbsoluteURI r.typ = false) :
    List.lookup "type" (r.ProblemDetail inst [b])
      = some (PDValue.str ((if hasSuf b "/".toList then b else b ++ "/".toList) ++ r.typ))
    ∧ r.ProblemDetail inst [b]
      = r.ProblemDetail inst [if hasSuf b "/".toList then b else b ++ "/".toList] := by
  have hbq : (b != []) = true := by simp [hb]
  have hbq2 : ((if hasSuf b "/".toList then b else b ++ "/".toList) != []) = true := by
    by_cases hs : hasSuf b "/".toList = true
    · rw [if_pos hs]
      exact hbq
    · rw [if_neg hs]
      simp
  constructor
  · rw [lookup_type_pd]
    simp [hbq, habs, resolveURI]
  · simp only [Response.ProblemDetail, hbq, hbq2, habs, Bool.not_false, Bool.and_true,
      if_true, resolveURI_ensure]

/-- Witness for C3: the spec's example, with and without the trailing slash
on the base URI. -/
theorem c3_witness :
    List.lookup "type"
        ((Response.mk "users/not-found".toList "User not found".toList 404 []).ProblemDetail []
          ["https://api.example.com/problems".toList])
      = some (PDValue.str "https://api.example.com/problems/users/not-found".toList)
    ∧ (Response.mk "users/not-found".toList "User not found".toList 404 []).ProblemDetail []
        ["https://api.example.com/problems".toList]
      = (Response.mk "users/not-found".toList "User not found".toList 404 []).ProblemDetail []
        ["https://api.example.com/problems/".toList] :=
  c3_relative_type_resolved_against_base _ []
    "https://api.example.com/problems".toList (by decide) (by decide)

/-- C4: a response type starting with one of the three recognized absolute
prefixes (http://, https://, about:) is emitted unchanged by ProblemDetail,
whatever the base URI argument. -/
theorem c4_absolute_type_unchanged (r : Response) (inst : List Char)
    (bs : List (List Char))
    (habs : hasPre r.typ "http://".toList = true ∨
            hasPre r.typ "https://".toList = true ∨
            hasPre r.typ "about:".toList = true) :
    List.lookup "type" (r.ProblemDetail inst bs) = some (PDValue.str r.typ) := by
  have h : isAbsoluteURI r.typ = true := by
    unfold isAbsoluteURI
    rcases habs with h | h | h <;> rw [h] <;> simp
  rw [lookup_type_pd]
  cases bs with
  | nil => rfl
  | cons b bs' => simp [h]

/-- Witness for C4: about:blank survives a base URI unchanged. -/
theorem c4_witness :
    List.lookup "type"
        ((Response.mk "about:blank".toList "Internal Server Error".toList 500 []).ProblemDetail []
          ["https://api.example.com/problems/".toList])
      = some (PDValue.str "about:blank".toList) :=
  c4_absolute_type_unchanged _ [] _ (Or.inr (Or.inr (by decide)))

/-- C5: the problem-detail map always carries the detail key exactly when the
detail is non-empty and the instance key exactly when the instance argument
is non-empty; with both empty, its keys are exactly type, title, status. -/
theorem c5_conditional_keys (r : Response) (inst : List Char) (bs : List (List Char)) :
    (r.detail = [] → inst = [] →
      (r.ProblemDetail inst bs).map Prod.fst = ["type", "title", "status"])
    ∧ (List.lookup "detail" (r.ProblemDetail inst bs)).isSome = (r.detail != [])
    ∧ (List.lookup "instance" (r.ProblemDetail inst bs)).isSome = (inst != []) :=
  ⟨fun hd hi => keys_pd r inst bs hd hi,
   lookup_detail_pd r inst bs,
   lookup_instance_pd r inst bs⟩

/-- Witness for C5: a response with empty detail and empty instance has
exactly the three always-present keys. -/
theorem c5_witness :
    ((Response.mk "users/not-found".toList "User not found".toList 404 []).ProblemDetail []
        []).map Prod.fst = ["type", "title", "status"] :=
  (c5_conditional_keys (Response.mk "users/not-found".toList "User not found".toList 404 [])
    [] []).1 rfl rfl

/-- C6: Resolve is total (it returns a Response, with no error path) and its
result copies the type, title and status of the matched configuration next
to the localized detail; an error matching no registry entry and exposing no
localization capability yields the default configuration's fields and an
empty detail. -/
theorem c6_resolve_shape (e : GoError) (m : Map) (tag : String) :
    Resolve (some e) m tag
      = ⟨(Map.Match m (some e)).typ, (Map.Match m (some e)).title,
         (Map.Match m (some e)).status,
         match asLocalizable e with
         | some loc => loc tag
         | none => []⟩
    ∧ ((∀ t c, (t, c) ∈ m → errorsIs (some e) t = false) →
        asLocalizable e = none →
        Resolve (some e) m tag
          = ⟨"about:blank".toList, "Internal Server Error".toList, 500, []⟩) := by
  constructor
  · rfl
  · intro h hl
    simp [Resolve, errorsAs, hl, match_eq_default_of_no_match m _ h, defaultConfig]

/-- Witness for C6: an unregistered, non-localizable error resolves to the
default configuration with an empty detail. -/
theorem c6_witness :
    Resolve (some (GoError.base 3 none))
        [(some (GoError.base 1 none), New "users/not-found".toList "User not found".toList 404)]
        "en"
      = ⟨"about:blank".toList, "Internal Server Error".toList, 500, []⟩ :=
  (c6_resolve_shape (GoError.base 3 none) _ "en").2
    (by
      intro t c hm
      simp only [List.mem_cons, List.not_mem_nil, or_false, Prod.mk.injEq] at hm
      obtain ⟨ht, _⟩ := hm
      subst ht
      decide)
    rfl

/-- C7: the localization capability is searched through the whole wrap chain
with the outermost capable error winning: a generic wrapping layer is
transparent to the search, an error whose chain exposes the capability gets
its localized message as the detail, and in particular one layer of generic
wrapping around a localizable error still yields the inner localized
message. -/
theorem c7_localization_through_wrapping (m : Map) (tag : String) (u : Nat)
    (e inner : GoError) (f : String → List Char) :
    asLocalizable (GoError.node u none inner) = asLocalizable inner
    ∧ (asLocalizable e = some f → (Resolve (some e) m tag).detail = f tag)
    ∧ (asLocalizable inner = some f →
        (Resolve (some (GoError.node u none inner)) m tag).detail = f tag) := by
  refine ⟨rfl, ?_, ?_⟩
  · intro h
    simp [Resolve, errorsAs, h]
  · intro h
    simp [Resolve, errorsAs, asLocalizable, h]

/-- Witness for C7: a localizable error wrapped in one generic layer still
localizes its message. -/
theorem c7_witness :
    (Resolve (some (GoError.node 9 none (GoError.base 1 (some (fun _ => "msg".toList)))))
        [] "ja").detail
      = "msg".toList :=
  (c7_localization_through_wrapping [] "ja" 9 (GoError.base 0 none)
    (GoError.base 1 (some (fun _ => "msg".toList))) (fun _ => "msg".toList)).2.2 rfl

/-- C10: Match never fabricates a configuration: its result is the constant
default configuration or one of the configuration values stored in the map
(and, the embedding being functional, the map is not mutated). -/
theorem c10_match_default_or_registered (m : Map) (err : Option GoError) :
    Map.Match m err = defaultConfig ∨ Map.Match m err ∈ m.map Prod.snd := by
  induction m with
  | nil => exact Or.inl rfl
  | cons hd tl ih =>
    obtain ⟨t0, c0⟩ := hd
    by_cases h0 : errorsIs err t0 = true
    · right
      simp [Map.Match, h0]
    · simp only [Map.Match, h0, if_false]
      rcases ih with h | h
      · exact Or.inl h
      · right
        simp only [List.map_cons, List.mem_cons]
        exact Or.inr h

end Httperr
